import Mathlib

/-!
# Verification of the Qms browser widgets

Shallow embedding of the repository's two browser-side widgets:

* `static/js/time_range_picker.js` — a date/time range picker: the pure
  quick-range computation `computeQuickRange`, the formatting helpers
  `pad2` / `formatDate` / `formatDateTime`, and the controller state machine
  (hidden-field initialisation, quick-range buttons, calendar selection,
  panel open/close, and the apply handler).
* `static/assets/kvjson/kvjson.js` — a key-value-to-JSON editor: the value
  decoder `parseValue`, the renderer `toDisplay`, the row-to-document fold
  of `syncHidden`, and the widget state machine (`loadInitial`, `addRow`,
  row removal, input change, `init`).

Time instants are modelled as milliseconds since the Unix epoch (`Int`),
interpreted on the proleptic Gregorian calendar with a fixed offset: the
scripts run on the browser's local wall clock and never mix
time zones, so daylight-saving shifts and time-zone designators are outside
the model.  JavaScript `Date` arithmetic on in-range values is exact integer
arithmetic, embedded here without the ±8.64e15 ms range clamp.
-/

/-! ## Calendar arithmetic

`daysFromCivil` maps a proleptic-Gregorian date (1-based month) to its day
number (days since 1970-01-01); `civilFromDays` is its inverse.  They use the
standard era decomposition (400-year eras of 146097 days anchored at
0000-03-01, so a leap day is the last day of its era), with the day-of-era
split into century / 4-year-block / year by clamped division.  These model
the calendar fields of the JavaScript `Date` object. -/

def daysFromCivil (y m d : Int) : Int :=
  let y2 := if m ≤ 2 then y - 1 else y
  let era := y2 / 400
  let yoe := y2 - era * 400
  let mp  := if 2 < m then m - 3 else m + 9
  let doy := (153 * mp + 2) / 5 + d - 1
  let doe := yoe * 365 + yoe / 4 - yoe / 100 + doy
  era * 146097 + doe - 719468

/-- The 400-year era of a day number. -/
def eraOf (z : Int) : Int := (z + 719468) / 146097

/-- Day of era, in `[0, 146096]`. -/
def doeOf (z : Int) : Int := z + 719468 - eraOf z * 146097

/-- Century within the era, in `[0, 3]`; the era's final leap day is clamped
into century 3. -/
def qcOf (z : Int) : Int :=
  if doeOf z / 36524 = 4 then 3 else doeOf z / 36524

/-- Day within the century, in `[0, 36524]`. -/
def r1Of (z : Int) : Int := doeOf z - 36524 * qcOf z

/-- Four-year block within the century, in `[0, 24]`. -/
def q4Of (z : Int) : Int :=
  if r1Of z / 1461 = 25 then 24 else r1Of z / 1461

/-- Day within the four-year block, in `[0, 1460]`. -/
def r2Of (z : Int) : Int := r1Of z - 1461 * q4Of z

/-- Year within the four-year block, in `[0, 3]`; a trailing leap day is
clamped into year 3. -/
def qyOf (z : Int) : Int :=
  if r2Of z / 365 = 4 then 3 else r2Of z / 365

/-- Day of the (March-based) year, in `[0, 365]`. -/
def doyOf (z : Int) : Int := r2Of z - 365 * qyOf z

/-- Year of the era, in `[0, 399]`. -/
def yoeOf (z : Int) : Int := 100 * qcOf z + 4 * q4Of z + qyOf z

/-- March-based month index, in `[0, 11]` (0 = March). -/
def mpOf (z : Int) : Int := (5 * doyOf z + 2) / 153

/-- Calendar month of a day number, 1-based (1 = January). -/
def monthOfDay (z : Int) : Int :=
  if mpOf z < 10 then mpOf z + 3 else mpOf z - 9

/-- Day of month of a day number, in `[1, 31]`. -/
def domOfDay (z : Int) : Int :=
  doyOf z - (153 * mpOf z + 2) / 5 + 1

/-- Calendar year of a day number. -/
def yearOfDay (z : Int) : Int :=
  if monthOfDay z ≤ 2 then yoeOf z + eraOf z * 400 + 1 else yoeOf z + eraOf z * 400

/-- The (year, month, day) civil date of a day number. -/
def civilFromDays (z : Int) : Int × Int × Int := (yearOfDay z, monthOfDay z, domOfDay z)

theorem era_facts (z : Int) :
    z + 719468 = eraOf z * 146097 + doeOf z ∧ 0 ≤ doeOf z ∧ doeOf z < 146097 := by
  unfold doeOf eraOf
  omega

theorem qc_facts (z : Int) :
    0 ≤ qcOf z ∧ qcOf z ≤ 3 ∧ 0 ≤ r1Of z ∧ r1Of z ≤ 36524 := by
  have h := era_facts z
  unfold r1Of qcOf
  split_ifs <;> omega

theorem q4_facts (z : Int) :
    0 ≤ q4Of z ∧ q4Of z ≤ 24 ∧ 0 ≤ r2Of z ∧ r2Of z ≤ 1460 := by
  have h := qc_facts z
  unfold r2Of q4Of
  split_ifs <;> omega

theorem qy_facts (z : Int) :
    0 ≤ qyOf z ∧ qyOf z ≤ 3 ∧ 0 ≤ doyOf z ∧ doyOf z ≤ 365 := by
  have h := q4_facts z
  unfold doyOf qyOf
  split_ifs <;> omega

theorem doe_decomp (z : Int) :
    36524 * qcOf z + 1461 * q4Of z + 365 * qyOf z + doyOf z = doeOf z := by
  unfold doyOf r2Of r1Of
  ring

theorem yoe_facts (z : Int) : 0 ≤ yoeOf z ∧ yoeOf z ≤ 399 := by
  have h1 := qc_facts z
  have h2 := q4_facts z
  have h3 := qy_facts z
  unfold yoeOf
  omega

theorem mp_facts (z : Int) : 0 ≤ mpOf z ∧ mpOf z ≤ 11 := by
  have h := qy_facts z
  unfold mpOf
  omega

theorem yoe_ediv4 (z : Int) : yoeOf z / 4 = 25 * qcOf z + q4Of z := by
  have h1 := qc_facts z
  have h2 := q4_facts z
  have h3 := qy_facts z
  unfold yoeOf
  omega

theorem yoe_ediv100 (z : Int) : yoeOf z / 100 = qcOf z := by
  have h1 := qc_facts z
  have h2 := q4_facts z
  have h3 := qy_facts z
  unfold yoeOf
  omega

theorem dfc_decomp (era yoe mp dom : Int)
    (hyoe : 0 ≤ yoe ∧ yoe ≤ 399) (hmp : 0 ≤ mp ∧ mp ≤ 11) :
    daysFromCivil (if mp < 10 then yoe + era * 400 else yoe + era * 400 + 1)
                  (if mp < 10 then mp + 3 else mp - 9) dom
      = era * 146097 + yoe * 365 + yoe / 4 - yoe / 100 +
        (153 * mp + 2) / 5 + dom - 1 - 719468 := by
  unfold daysFromCivil
  simp only []
  have hj : (yoe + era * 400) / 400 = era := by omega
  split_ifs <;> omega

theorem yearOfDay_alt (z : Int) :
    yearOfDay z =
      if mpOf z < 10 then yoeOf z + eraOf z * 400 else yoeOf z + eraOf z * 400 + 1 := by
  have h := mp_facts z
  unfold yearOfDay monthOfDay
  split_ifs <;> omega

/-- `daysFromCivil` inverts `civilFromDays`: the civil date assigned to a day
number maps back to that day number. -/
theorem daysFromCivil_civilFromDays (z : Int) :
    daysFromCivil (yearOfDay z) (monthOfDay z) (domOfDay z) = z := by
  have hm : monthOfDay z = if mpOf z < 10 then mpOf z + 3 else mpOf z - 9 := rfl
  rw [yearOfDay_alt z, hm,
    dfc_decomp (eraOf z) (yoeOf z) (mpOf z) (domOfDay z) (yoe_facts z) (mp_facts z)]
  have h1 := era_facts z
  have h5 := doe_decomp z
  have h8 := yoe_ediv4 z
  have h9 := yoe_ediv100 z
  unfold domOfDay
  unfold yoeOf at *
  omega

theorem monthOfDay_bounds (z : Int) : 1 ≤ monthOfDay z ∧ monthOfDay z ≤ 12 := by
  have h := mp_facts z
  unfold monthOfDay
  split_ifs <;> omega

example : civilFromDays 0 = (1970, 1, 1) := by decide
example : civilFromDays 19754 = (2024, 2, 1) := by decide
example : civilFromDays 19782 = (2024, 2, 29) := by decide
example : civilFromDays 19783 = (2024, 3, 1) := by decide
example : daysFromCivil 1970 1 1 = 0 := by decide
example : daysFromCivil 2024 2 29 = 19782 := by decide
example : civilFromDays (daysFromCivil 1900 2 28) = (1900, 2, 28) := by decide
example : civilFromDays (daysFromCivil 2000 2 29) = (2000, 2, 29) := by decide

/-! ## JavaScript `Date` operations

A `Date` is its time value: milliseconds since the epoch (`Int`).  The local
time zone is modelled as a fixed zero offset (see the header). -/

def msPerDay : Int := 86400000

/-- The local day index of a time value (days since 1970-01-01). -/
def dayNumber (t : Int) : Int := t / 86400000

/-- Milliseconds elapsed since local midnight, in `[0, 86399999]`. -/
def msOfDay (t : Int) : Int := t % 86400000

/-- `Date.prototype.getFullYear`. -/
def getFullYear (t : Int) : Int := yearOfDay (dayNumber t)

/-- `Date.prototype.getMonth` (0-based: 0 = January). -/
def getMonth (t : Int) : Int := monthOfDay (dayNumber t) - 1

/-- `Date.prototype.getDate` (day of month, 1-based). -/
def getDate (t : Int) : Int := domOfDay (dayNumber t)

/-- `Date.prototype.getDay` (weekday, 0 = Sunday); 1970-01-01 was a Thursday. -/
def getDay (t : Int) : Int := (dayNumber t + 4) % 7

/-- `Date.prototype.getHours`. -/
def getHours (t : Int) : Int := msOfDay t / 3600000

/-- `Date.prototype.getMinutes`. -/
def getMinutes (t : Int) : Int := msOfDay t % 3600000 / 60000

/-- `Date.prototype.getSeconds`. -/
def getSeconds (t : Int) : Int := msOfDay t % 60000 / 1000

/-- `d.setHours(h, mi, s, ms)`: replace the time of day (overflow carries,
exactly as JavaScript `MakeTime` does on the linear time value). -/
def setHours (t h mi s ms : Int) : Int :=
  dayNumber t * 86400000 + h * 3600000 + mi * 60000 + s * 1000 + ms

/-- `d.setDate(n)`: replace the day of month by `n` (any integer; values
outside the month roll over, as JavaScript `MakeDay` does), keeping the
time of day. -/
def setDate (t n : Int) : Int :=
  daysFromCivil (yearOfDay (dayNumber t)) (monthOfDay (dayNumber t)) n * 86400000
    + msOfDay t

/-- `new Date(y, m, d)` (month 0-based, both month and day roll over):
local midnight of the named civil day. -/
def mkDate (y m d : Int) : Int :=
  let t := y * 12 + m
  daysFromCivil (t / 12) (t % 12 + 1) d * 86400000

theorem msOfDay_bounds (t : Int) : 0 ≤ msOfDay t ∧ msOfDay t < 86400000 := by
  unfold msOfDay
  omega

theorem dayNumber_decomp (t : Int) : t = dayNumber t * 86400000 + msOfDay t := by
  unfold dayNumber msOfDay
  omega

/-- Linearity of `daysFromCivil` in the day argument. -/
theorem daysFromCivil_day_linear (y m d e : Int) :
    daysFromCivil y m d = daysFromCivil y m e + (d - e) := by
  unfold daysFromCivil
  simp only []
  split_ifs <;> ring

/-- `setDate` moves the day index by the difference with the current day of
month and keeps the time of day. -/
theorem setDate_spec (t n : Int) :
    dayNumber (setDate t n) = dayNumber t + (n - getDate t) ∧
    msOfDay (setDate t n) = msOfDay t := by
  have hb := msOfDay_bounds t
  have hd : daysFromCivil (yearOfDay (dayNumber t)) (monthOfDay (dayNumber t)) n
      = dayNumber t + (n - domOfDay (dayNumber t)) := by
    rw [daysFromCivil_day_linear (yearOfDay (dayNumber t)) (monthOfDay (dayNumber t)) n
      (domOfDay (dayNumber t)), daysFromCivil_civilFromDays (dayNumber t)]
  unfold setDate getDate
  constructor
  · unfold dayNumber at *
    omega
  · unfold msOfDay at *
    omega

theorem setHours_start_le_end (t : Int) :
    setHours t 0 0 0 0 ≤ setHours t 23 59 59 999 := by
  unfold setHours
  omega

theorem dayNumber_setHours (t h mi s ms : Int)
    (h1 : 0 ≤ h * 3600000 + mi * 60000 + s * 1000 + ms)
    (h2 : h * 3600000 + mi * 60000 + s * 1000 + ms < 86400000) :
    dayNumber (setHours t h mi s ms) = dayNumber t := by
  unfold setHours dayNumber
  omega

theorem setHours_le_self (t : Int) : setHours t 0 0 0 0 ≤ t := by
  have hb := msOfDay_bounds t
  have hd := dayNumber_decomp t
  unfold setHours
  omega

theorem self_le_setHours_end (t : Int) : t ≤ setHours t 23 59 59 999 := by
  have hb := msOfDay_bounds t
  have hd := dayNumber_decomp t
  unfold setHours
  omega

theorem getDay_bounds (t : Int) : 0 ≤ getDay t ∧ getDay t ≤ 6 := by
  unfold getDay
  omega

/-! ## String helpers and quick-range computation -/

/-- `String.prototype.trim`'s whitespace test, modelled for the ASCII
whitespace characters plus NBSP and the BOM (the further Unicode space
separators do not occur in the widget's inputs). -/
def isJsSpace (c : Char) : Bool :=
  c = ' ' ∨ c = '\t' ∨ c = '\n' ∨ c = '\r' ∨ c.toNat = 11 ∨ c.toNat = 12 ∨
    c.toNat = 160 ∨ c.toNat = 65279

/-- `String.prototype.trim`. -/
def jsTrim (s : String) : String :=
  String.mk (((s.data.dropWhile isJsSpace).reverse.dropWhile isJsSpace).reverse)

/-- `String.prototype.toLowerCase`, modelled on the ASCII letters (the
widget's keys are ASCII). -/
def asciiLower (c : Char) : Char :=
  if 'A' ≤ c ∧ c ≤ 'Z' then Char.ofNat (c.toNat + 32) else c

def jsToLowerCase (s : String) : String := String.mk (s.data.map asciiLower)

/-- `computeQuickRange` of `static/js/time_range_picker.js`, with the
current instant `now` passed explicitly (the source reads `new Date()`). -/
def computeQuickRange (key : String) (now : Int) : Int × Int :=
  let k := jsToLowerCase (jsTrim key)
  if k = "today" then
    (setHours now 0 0 0 0, setHours now 23 59 59 999)
  else if k = "yesterday" then
    let f := setHours (setDate now (getDate now - 1)) 0 0 0 0
    (f, setHours f 23 59 59 999)
  else if k = "this_week" ∨ k = "this week" then
    let dow := if getDay now = 0 then 7 else getDay now
    (setHours (setDate now (getDate now - (dow - 1))) 0 0 0 0,
     setHours now 23 59 59 999)
  else if k = "this_month" ∨ k = "this month" then
    (setHours (mkDate (getFullYear now) (getMonth now) 1) 0 0 0 0,
     setHours (mkDate (getFullYear now) (getMonth now + 1) 0) 23 59 59 999)
  else if k = "last_12_hours" then
    (now - 12 * 60 * 60 * 1000, now)
  else if k = "last_24_hours" then
    (now - 24 * 60 * 60 * 1000, now)
  else if k = "last_2_days" then
    (setHours (setDate now (getDate now - 1)) 0 0 0 0, setHours now 23 59 59 999)
  else if k = "last_7_days" then
    (setHours (setDate now (getDate now - 6)) 0 0 0 0, setHours now 23 59 59 999)
  else
    (setHours now 0 0 0 0, setHours now 23 59 59 999)

theorem cqr_today (now : Int) :
    computeQuickRange "today" now = (setHours now 0 0 0 0, setHours now 23 59 59 999) := rfl

theorem cqr_yesterday (now : Int) :
    computeQuickRange "yesterday" now =
      (setHours (setDate now (getDate now - 1)) 0 0 0 0,
       setHours (setHours (setDate now (getDate now - 1)) 0 0 0 0) 23 59 59 999) := rfl

theorem cqr_this_week (now : Int) :
    computeQuickRange "this_week" now =
      (setHours (setDate now
          (getDate now - ((if getDay now = 0 then 7 else getDay now) - 1))) 0 0 0 0,
       setHours now 23 59 59 999) := rfl

theorem cqr_this_month (now : Int) :
    computeQuickRange "this_month" now =
      (setHours (mkDate (getFullYear now) (getMonth now) 1) 0 0 0 0,
       setHours (mkDate (getFullYear now) (getMonth now + 1) 0) 23 59 59 999) := rfl

/-- The first of a month is no later than day 0 (the last day of the
preceding month) of the following month. -/
theorem month_start_le_next_day0 (y m : Int) (h1 : 1 ≤ m) (h2 : m ≤ 11) :
    daysFromCivil y m 1 ≤ daysFromCivil y (m + 1) 0 := by
  unfold daysFromCivil
  simp only []
  split_ifs <;> omega

theorem dec_start_le_jan_day0 (y : Int) :
    daysFromCivil y 12 1 ≤ daysFromCivil (y + 1) 1 0 := by
  unfold daysFromCivil
  simp only []
  split_ifs <;> omega

/-- Normalisation of `new Date(y, m, d)` for in-range 0-based months. -/
theorem mkDate_norm (y m d : Int) (h : 0 ≤ m ∧ m ≤ 11) :
    mkDate y m d = daysFromCivil y (m + 1) d * 86400000 := by
  unfold mkDate
  simp only []
  have h1 : (y * 12 + m) / 12 = y := by omega
  have h2 : (y * 12 + m) % 12 = m := by omega
  rw [h1, h2]

/-- Normalisation of `new Date(y, 12, d)`: month 12 rolls into January of the
next year. -/
theorem mkDate_dec (y d : Int) :
    mkDate y 12 d = daysFromCivil (y + 1) 1 d * 86400000 := by
  unfold mkDate
  simp only []
  have h1 : (y * 12 + 12) / 12 = y + 1 := by omega
  have h2 : (y * 12 + 12) % 12 = 0 := by omega
  rw [h1, h2]
  norm_num

theorem start_le_end_of_start (t : Int) :
    setHours t 0 0 0 0 ≤ setHours (setHours t 0 0 0 0) 23 59 59 999 := by
  unfold setHours dayNumber
  omega

/-- Start of day `k` days back is at most the end of the current day. -/
theorem back_start_le_end (now k : Int) (hk : 0 ≤ k) :
    setHours (setDate now (getDate now - k)) 0 0 0 0 ≤ setHours now 23 59 59 999 := by
  have hs := (setDate_spec now (getDate now - k)).1
  unfold setHours
  rw [hs]
  omega

theorem this_month_from_le_to (now : Int) :
    setHours (mkDate (getFullYear now) (getMonth now) 1) 0 0 0 0 ≤
      setHours (mkDate (getFullYear now) (getMonth now + 1) 0) 23 59 59 999 := by
  have hmb := monthOfDay_bounds (dayNumber now)
  have hm0 : 0 ≤ getMonth now ∧ getMonth now ≤ 11 := by
    unfold getMonth
    omega
  rcases Int.lt_or_le (getMonth now) 11 with hlt | hge
  · have e1 := mkDate_norm (getFullYear now) (getMonth now) 1 (by omega)
    have e2 := mkDate_norm (getFullYear now) (getMonth now + 1) 0 (by omega)
    have e3 := month_start_le_next_day0 (getFullYear now) (getMonth now + 1)
      (by omega) (by omega)
    unfold setHours dayNumber
    rw [e1, e2]
    have d1 : daysFromCivil (getFullYear now) (getMonth now + 1) 1 * 86400000 / 86400000
        = daysFromCivil (getFullYear now) (getMonth now + 1) 1 := by omega
    have d2 : daysFromCivil (getFullYear now) (getMonth now + 1 + 1) 0 * 86400000 / 86400000
        = daysFromCivil (getFullYear now) (getMonth now + 1 + 1) 0 := by omega
    rw [d1, d2]
    omega
  · have hm11 : getMonth now = 11 := by omega
    rw [hm11]
    norm_num
    have e1 : mkDate (getFullYear now) 11 1
        = daysFromCivil (getFullYear now) 12 1 * 86400000 := by
      rw [mkDate_norm (getFullYear now) 11 1 (by omega)]
      norm_num
    have e2 : mkDate (getFullYear now) 12 0
        = daysFromCivil (getFullYear now + 1) 1 0 * 86400000 := mkDate_dec (getFullYear now) 0
    have e3 := dec_start_le_jan_day0 (getFullYear now)
    unfold setHours dayNumber
    rw [e1, e2]
    have d1 : daysFromCivil (getFullYear now) 12 1 * 86400000 / 86400000
        = daysFromCivil (getFullYear now) 12 1 := by omega
    have d2 : daysFromCivil (getFullYear now + 1) 1 0 * 86400000 / 86400000
        = daysFromCivil (getFullYear now + 1) 1 0 := by omega
    rw [d1, d2]
    omega

/-- The quick-range keys the `switch` of `computeQuickRange` recognizes. -/
def recognizedQuickRangeKeys : List String :=
  ["today", "yesterday", "this_week", "this week", "this_month", "this month",
   "last_12_hours", "last_24_hours", "last_2_days", "last_7_days"]

/-- The Monday-start property of the `this_week` range: it begins at the
start of day of the Monday within the seven days ending at `t`'s day (the
Monday of `t`'s Monday-started week), and ends at the end of `t`'s day. -/
theorem this_week_monday (t : Int) :
    getDay (computeQuickRange "this_week" t).1 = 1 ∧
    msOfDay (computeQuickRange "this_week" t).1 = 0 ∧
    dayNumber t - 6 ≤ dayNumber (computeQuickRange "this_week" t).1 ∧
    dayNumber (computeQuickRange "this_week" t).1 ≤ dayNumber t ∧
    (computeQuickRange "this_week" t).2 = setHours t 23 59 59 999 := by
  have hsd := (setDate_spec t (getDate t - ((if getDay t = 0 then 7 else getDay t) - 1))).1
  have hb := getDay_bounds t
  refine ⟨?_, ?_, ?_, ?_, rfl⟩
  · show getDay (setHours (setDate t
        (getDate t - ((if getDay t = 0 then 7 else getDay t) - 1))) 0 0 0 0) = 1
    unfold getDay setHours dayNumber at *
    split_ifs at * <;> omega
  · show msOfDay (setHours (setDate t
        (getDate t - ((if getDay t = 0 then 7 else getDay t) - 1))) 0 0 0 0) = 0
    unfold msOfDay setHours
    omega
  · show dayNumber t - 6 ≤ dayNumber (setHours (setDate t
        (getDate t - ((if getDay t = 0 then 7 else getDay t) - 1))) 0 0 0 0)
    unfold getDay setHours dayNumber at *
    split_ifs at * <;> omega
  · show dayNumber (setHours (setDate t
        (getDate t - ((if getDay t = 0 then 7 else getDay t) - 1))) 0 0 0 0) ≤ dayNumber t
    unfold getDay setHours dayNumber at *
    split_ifs at * <;> omega

theorem this_week_sunday_from (now : Int) (h : getDay now = 0) :
    (computeQuickRange "this_week" now).1 = setHours (now - 6 * msPerDay) 0 0 0 0 := by
  show setHours (setDate now
      (getDate now - ((if getDay now = 0 then 7 else getDay now) - 1))) 0 0 0 0
    = setHours (now - 6 * msPerDay) 0 0 0 0
  rw [h]
  norm_num
  have hsd := (setDate_spec now (getDate now - 6)).1
  unfold setHours dayNumber msPerDay at *
  omega

/-- C3: for every recognized quick-range key and fixed `now`, `resolve` is
deterministic (a pure function of `key` and `now`) and returns a range with
`from ≤ to`. -/
theorem quickRange_deterministic_ordered (key : String) (now : Int)
    (h : key ∈ recognizedQuickRangeKeys) :
    computeQuickRange key now = computeQuickRange key now ∧
    (computeQuickRange key now).1 ≤ (computeQuickRange key now).2 := by
  refine ⟨rfl, ?_⟩
  have hb := getDay_bounds now
  fin_cases h
  · exact setHours_start_le_end now
  · exact start_le_end_of_start (setDate now (getDate now - 1))
  · exact back_start_le_end now ((if getDay now = 0 then 7 else getDay now) - 1)
      (by split_ifs <;> omega)
  · exact back_start_le_end now ((if getDay now = 0 then 7 else getDay now) - 1)
      (by split_ifs <;> omega)
  · exact this_month_from_le_to now
  · exact this_month_from_le_to now
  · show now - 12 * 60 * 60 * 1000 ≤ now
    omega
  · show now - 24 * 60 * 60 * 1000 ≤ now
    omega
  · exact back_start_le_end now 1 (by omega)
  · exact back_start_le_end now 6 (by omega)

theorem quickRange_deterministic_ordered_witness :
    "today" ∈ recognizedQuickRangeKeys ∧
    (computeQuickRange "today" 0).1 ≤ (computeQuickRange "today" 0).2 :=
  ⟨by decide, (quickRange_deterministic_ordered "today" 0 (by decide)).2⟩

theorem cqr_unrecognized (key : String) (now : Int)
    (h : jsToLowerCase (jsTrim key) ∉ recognizedQuickRangeKeys) :
    computeQuickRange key now = (setHours now 0 0 0 0, setHours now 23 59 59 999) := by
  unfold computeQuickRange
  simp only [recognizedQuickRangeKeys, List.mem_cons, List.not_mem_nil, or_false,
    not_or] at h
  obtain ⟨h1, h2, h3, h4, h5, h6, h7, h8, h9, h10⟩ := h
  simp only []
  rw [if_neg h1, if_neg h2, if_neg (not_or.mpr ⟨h3, h4⟩), if_neg (not_or.mpr ⟨h5, h6⟩),
    if_neg h7, if_neg h8, if_neg h9, if_neg h10]

/-- C6: key normalisation (trim, lowercase) and the default case: `"TODAY  "`,
`"today"`, `"unknown-key"` and `""` all resolve to the same
start-of-day/end-of-day range of `now`'s day, and every key whose normalised
form is unrecognized degrades to that same default range — no error is ever
signalled (`computeQuickRange` is total). -/
theorem quickRange_normalizes_and_defaults (now : Int) :
    computeQuickRange "TODAY  " now = computeQuickRange "today" now ∧
    computeQuickRange "unknown-key" now = computeQuickRange "today" now ∧
    computeQuickRange "" now = computeQuickRange "today" now ∧
    computeQuickRange "today" now = (setHours now 0 0 0 0, setHours now 23 59 59 999) ∧
    (∀ key : String, jsToLowerCase (jsTrim key) ∉ recognizedQuickRangeKeys →
      computeQuickRange key now = computeQuickRange "today" now) :=
  ⟨rfl, rfl, rfl, rfl, fun key h => cqr_unrecognized key now h⟩

/-- C7: on any `now` whose civil date is 2024-02-10, `this_month` resolves to
[2024-02-01 00:00:00.000, 2024-02-29 23:59:59.999] — the last day computed as
day 0 of the next month lands on February 29 in the 2024 leap year. -/
theorem this_month_leap_february (now : Int) (h1 : getFullYear now = 2024)
    (h2 : getMonth now = 1) (h3 : getDate now = 10) :
    civilFromDays (dayNumber (computeQuickRange "this_month" now).1) = (2024, 2, 1) ∧
    msOfDay (computeQuickRange "this_month" now).1 = 0 ∧
    civilFromDays (dayNumber (computeQuickRange "this_month" now).2) = (2024, 2, 29) ∧
    getHours (computeQuickRange "this_month" now).2 = 23 ∧
    getMinutes (computeQuickRange "this_month" now).2 = 59 ∧
    getSeconds (computeQuickRange "this_month" now).2 = 59 ∧
    msOfDay (computeQuickRange "this_month" now).2 = 86399999 := by
  have e : computeQuickRange "this_month" now =
      (setHours (mkDate 2024 1 1) 0 0 0 0,
       setHours (mkDate 2024 (1 + 1) 0) 23 59 59 999) := by
    rw [cqr_this_month, h1, h2]
  rw [e]
  decide

theorem this_month_leap_february_witness :
    getFullYear 1707568496789 = 2024 ∧ getMonth 1707568496789 = 1 ∧
    getDate 1707568496789 = 10 ∧
    civilFromDays (dayNumber (computeQuickRange "this_month" 1707568496789).2)
      = (2024, 2, 29) :=
  ⟨by decide, by decide, by decide,
   (this_month_leap_february 1707568496789 (by decide) (by decide) (by decide)).2.2.1⟩

/-- C8: `this_week` always starts at the start of day of a Monday and ends at
the end of `now`'s day; when `now` falls on a Sunday the start is the prior
Monday, six days earlier — not the same day. -/
theorem this_week_starts_prior_monday (now : Int) (h : getDay now = 0) :
    (∀ t : Int, getDay (computeQuickRange "this_week" t).1 = 1 ∧
        msOfDay (computeQuickRange "this_week" t).1 = 0 ∧
        dayNumber t - 6 ≤ dayNumber (computeQuickRange "this_week" t).1 ∧
        dayNumber (computeQuickRange "this_week" t).1 ≤ dayNumber t ∧
        (computeQuickRange "this_week" t).2 = setHours t 23 59 59 999) ∧
    (computeQuickRange "this_week" now).1 = setHours (now - 6 * msPerDay) 0 0 0 0 ∧
    dayNumber (computeQuickRange "this_week" now).1 = dayNumber now - 6 ∧
    dayNumber (computeQuickRange "this_week" now).1 ≠ dayNumber now := by
  have hfrom := this_week_sunday_from now h
  have hday : dayNumber (computeQuickRange "this_week" now).1 = dayNumber now - 6 := by
    rw [hfrom]
    unfold setHours dayNumber msPerDay
    omega
  exact ⟨fun t => this_week_monday t, hfrom, hday, by omega⟩

theorem this_week_starts_prior_monday_witness :
    getDay 259200000 = 0 ∧
    dayNumber (computeQuickRange "this_week" 259200000).1 = dayNumber 259200000 - 6 :=
  ⟨by decide, (this_week_starts_prior_monday 259200000 (by decide)).2.2.1⟩

/-! ## Formatting and date-string parsing -/

/-- `pad2` of `time_range_picker.js`. -/
def pad2 (n : Int) : String := if n < 10 then "0" ++ toString n else toString n

/-- `formatDate` of `time_range_picker.js`: `YYYY-MM-DD`. -/
def formatDate (t : Int) : String :=
  toString (getFullYear t) ++ "-" ++ pad2 (getMonth t + 1) ++ "-" ++ pad2 (getDate t)

/-- `formatDateTime` of `time_range_picker.js`: `YYYY-MM-DD HH:MM:SS`. -/
def formatDateTime (t : Int) : String :=
  formatDate t ++ " " ++ pad2 (getHours t) ++ ":" ++ pad2 (getMinutes t) ++ ":" ++
    pad2 (getSeconds t)

def isDigit (c : Char) : Bool := '0' ≤ c ∧ c ≤ '9'

def digitInt (c : Char) : Int := (c.toNat : Int) - 48

def isLeapYear (y : Int) : Bool := (y % 4 = 0 ∧ y % 100 ≠ 0) ∨ y % 400 = 0

def daysInMonth (y m : Int) : Int :=
  if m = 2 then (if isLeapYear y then 29 else 28)
  else if m = 4 ∨ m = 6 ∨ m = 9 ∨ m = 11 then 30
  else 31

/-- The optional time part of a date-time string: empty, `THH:MM`,
`THH:MM:SS` or `THH:MM:SS.sss`. -/
def parseTimeTail : List Char → Option (Int × Int × Int × Int)
  | [] => some (0, 0, 0, 0)
  | 'T' :: h1 :: h2 :: ':' :: m1 :: m2 :: rest =>
    if isDigit h1 ∧ isDigit h2 ∧ isDigit m1 ∧ isDigit m2 then
      let h := 10 * digitInt h1 + digitInt h2
      let mi := 10 * digitInt m1 + digitInt m2
      match rest with
      | [] => some (h, mi, 0, 0)
      | ':' :: s1 :: s2 :: rest2 =>
        if isDigit s1 ∧ isDigit s2 then
          let s := 10 * digitInt s1 + digitInt s2
          match rest2 with
          | [] => some (h, mi, s, 0)
          | '.' :: f1 :: f2 :: f3 :: [] =>
            if isDigit f1 ∧ isDigit f2 ∧ isDigit f3 then
              some (h, mi, s, 100 * digitInt f1 + 10 * digitInt f2 + digitInt f3)
            else none
          | _ => none
        else none
      | _ => none
    else none
  | _ => none

def validTime (h mi s ms : Int) : Bool :=
  (h ≤ 23 ∧ mi ≤ 59 ∧ s ≤ 59) ∨ (h = 24 ∧ mi = 0 ∧ s = 0 ∧ ms = 0)

/-- `new Date(string)`, modelled for the ES Date Time String Format as the
widget uses it: `YYYY-MM-DD` with an optional `THH:MM[:SS[.sss]]` time part,
calendar-validated, no zone designator and no extended (`±YYYYYY`) or short
(`YYYY`, `YYYY-MM`) date forms.  A date-only string denotes midnight (the
model's fixed offset makes the UTC/local distinction vacuous).  Strings
outside this format — including the legacy implementation-defined formats —
are modelled as unparseable. -/
def jsDateParse (s : String) : Option Int :=
  match s.data with
  | y1 :: y2 :: y3 :: y4 :: '-' :: m1 :: m2 :: '-' :: d1 :: d2 :: rest =>
    if isDigit y1 ∧ isDigit y2 ∧ isDigit y3 ∧ isDigit y4 ∧ isDigit m1 ∧ isDigit m2
        ∧ isDigit d1 ∧ isDigit d2 then
      let y := 1000 * digitInt y1 + 100 * digitInt y2 + 10 * digitInt y3 + digitInt y4
      let m := 10 * digitInt m1 + digitInt m2
      let d := 10 * digitInt d1 + digitInt d2
      if 1 ≤ m ∧ m ≤ 12 ∧ 1 ≤ d ∧ d ≤ daysInMonth y m then
        match parseTimeTail rest with
        | some (h, mi, sec, ms) =>
          if validTime h mi sec ms then
            some (daysFromCivil y m d * 86400000 + h * 3600000 + mi * 60000
              + sec * 1000 + ms)
          else none
        | none => none
      else none
    else none
  | _ => none

def replaceFirstSpaceChars : List Char → List Char
  | [] => []
  | c :: cs => if c = ' ' then 'T' :: cs else c :: replaceFirstSpaceChars cs

/-- `s.replace(" ", "T")`: JavaScript `replace` with a string pattern
replaces only the first occurrence. -/
def replaceFirstSpaceT (s : String) : String := String.mk (replaceFirstSpaceChars s.data)

example : jsDateParse "2024-05-10T10:00:00" = some 1715335200000 := by decide
example : jsDateParse "2024-05-10" = some 1715299200000 := by decide
example : jsDateParse "2024-02-30" = none := by decide
example : jsDateParse "" = none := by decide
example : formatDateTime 1715335200000 = "2024-05-10 10:00:00" := by decide

/-! ## The range-picker controller

State of the handlers installed by the `DOMContentLoaded` callback of
`time_range_picker.js`: the module variables `currentFrom`, `currentTo` and
the lazily built calendar (`picker`), plus the DOM fields the handlers read
and write.  `alerts` logs the blocking `alert` calls and `submitCount`
counts form submissions (`requestSubmit` and the `submit` fallback both
submit the enclosing form exactly once). -/

structure PickerState where
  currentFrom : Option Int
  currentTo : Option Int
  fromInput : String
  toInput : String
  hiddenFrom : String
  hiddenTo : String
  summaryLabel : String
  panelOpen : Bool
  pickerBuilt : Bool
  pickerRange : Option (Int × Int)
  alerts : List String
  submitCount : Nat
  deriving DecidableEq, Repr

/-- `parseDT` inside `initFromHidden`: try the string with its first space
replaced by `T`; failing that, try it verbatim and normalise to start of
day. -/
def parseDT (s : String) : Option Int :=
  match jsDateParse (replaceFirstSpaceT s) with
  | some dt => some dt
  | none =>
    match jsDateParse s with
    | some d => some (setHours d 0 0 0 0)
    | none => none

/-- `initFromHidden`: populate `currentFrom`/`currentTo` from the hidden
fields (a failed parse stores null); when both are set, reflect them into
the visible inputs and the summary label. -/
def initFromHidden (st : PickerState) : PickerState :=
  let cf := if st.hiddenFrom = "" then st.currentFrom else parseDT st.hiddenFrom
  let ct := if st.hiddenTo = "" then st.currentTo else parseDT st.hiddenTo
  match cf, ct with
  | some f, some t =>
    { st with
      currentFrom := some f
      currentTo := some t
      fromInput := formatDateTime f
      toInput := formatDateTime t
      summaryLabel := formatDateTime f ++ " → " ++ formatDateTime t }
  | _, _ =>
    { st with
      currentFrom := cf
      currentTo := ct }

/-- A quick-range button's click handler. -/
def selectQuickRange (st : PickerState) (key : String) (now : Int) : PickerState :=
  let r := computeQuickRange key now
  { st with
    currentFrom := some r.1
    currentTo := some r.2
    fromInput := formatDateTime r.1
    toInput := formatDateTime r.2
    pickerRange := if st.pickerBuilt then some (r.1, r.2) else st.pickerRange }

/-- The calendar's `selected` handler: ignore incomplete selections,
normalise the endpoints to whole days, store and reflect them. -/
def onCalendarSelected (st : PickerState) (d1 d2 : Option Int) : PickerState :=
  match d1, d2 with
  | some a, some b =>
    let f := setHours a 0 0 0 0
    let t := setHours b 23 59 59 999
    { st with
      currentFrom := some f
      currentTo := some t
      fromInput := formatDateTime f
      toInput := formatDateTime t }
  | _, _ => st

/-- `openPanel` (sans pixel positioning): show the panel, build the calendar
on first use when the library is available, and seed it with the current
range. -/
def openPanel (st : PickerState) (litepickerAvailable : Bool) : PickerState :=
  let st1 := { st with panelOpen := true }
  let st2 :=
    if litepickerAvailable ∧ ¬ st.pickerBuilt then
      { st1 with
        pickerBuilt := true
        pickerRange :=
          match st.currentFrom, st.currentTo with
          | some f, some t => some (f, t)
          | _, _ => st.pickerRange }
    else st1
  if st2.pickerBuilt then
    match st.currentFrom, st.currentTo with
    | some f, some t => { st2 with pickerRange := some (f, t) }
    | _, _ => st2
  else st2

def closePanel (st : PickerState) : PickerState := { st with panelOpen := false }

/-- The apply button's click handler: validate (presence, parseability,
ordering) with a blocking alert on failure, else commit to the hidden
fields, update the summary, close the panel and submit the form. -/
def applyClick (st : PickerState) : PickerState :=
  if st.fromInput = "" ∨ st.toInput = "" then
    { st with alerts := st.alerts ++ ["Please enter valid 'From' and 'To'."] }
  else
    match jsDateParse (replaceFirstSpaceT st.fromInput),
          jsDateParse (replaceFirstSpaceT st.toInput) with
    | some f, some t =>
      if t < f then
        { st with alerts := st.alerts ++ ["'From' must be before 'To'."] }
      else
        { st with
          currentFrom := some f
          currentTo := some t
          hiddenFrom := formatDateTime f
          hiddenTo := formatDateTime t
          summaryLabel := formatDateTime f ++ " → " ++ formatDateTime t
          panelOpen := false
          submitCount := st.submitCount + 1 }
    | _, _ => { st with alerts := st.alerts ++ ["Invalid date/time."] }

/-- C2: when either visible input is empty, either fails to parse, or the
parsed `from` exceeds the parsed `to`, apply surfaces exactly one blocking
alert and changes nothing: hidden fields, summary label, stored range,
panel visibility and submission count all keep their prior values. -/
theorem apply_invalid_blocks (st : PickerState)
    (h : st.fromInput = "" ∨ st.toInput = "" ∨
      jsDateParse (replaceFirstSpaceT st.fromInput) = none ∨
      jsDateParse (replaceFirstSpaceT st.toInput) = none ∨
      ∃ f t : Int, jsDateParse (replaceFirstSpaceT st.fromInput) = some f ∧
        jsDateParse (replaceFirstSpaceT st.toInput) = some t ∧ t < f) :
    (applyClick st).alerts.length = st.alerts.length + 1 ∧
    (applyClick st).hiddenFrom = st.hiddenFrom ∧
    (applyClick st).hiddenTo = st.hiddenTo ∧
    (applyClick st).summaryLabel = st.summaryLabel ∧
    (applyClick st).currentFrom = st.currentFrom ∧
    (applyClick st).currentTo = st.currentTo ∧
    (applyClick st).panelOpen = st.panelOpen ∧
    (applyClick st).submitCount = st.submitCount := by
  unfold applyClick
  by_cases hemp : st.fromInput = "" ∨ st.toInput = ""
  · rw [if_pos hemp]
    exact ⟨by simp, rfl, rfl, rfl, rfl, rfl, rfl, rfl⟩
  · rw [if_neg hemp]
    cases hf : jsDateParse (replaceFirstSpaceT st.fromInput) with
    | none => exact ⟨by simp, rfl, rfl, rfl, rfl, rfl, rfl, rfl⟩
    | some f =>
      cases ht : jsDateParse (replaceFirstSpaceT st.toInput) with
      | none => exact ⟨by simp, rfl, rfl, rfl, rfl, rfl, rfl, rfl⟩
      | some t =>
        have hlt : t < f := by
          rcases h with h | h | h | h | ⟨f2, t2, hf2, ht2, hlt⟩
          · exact absurd (Or.inl h) hemp
          · exact absurd (Or.inr h) hemp
          · rw [h] at hf
            exact Option.noConfusion hf
          · rw [h] at ht
            exact Option.noConfusion ht
          · rw [hf] at hf2
            rw [ht] at ht2
            rw [Option.some.injEq] at hf2 ht2
            rw [hf2, ht2]
            exact hlt
        simp [hlt]

/-- The state of the spec's failing-apply example: `from` one day after
`to`, arbitrary prior contents elsewhere. -/
def applyTestBad : PickerState :=
  { currentFrom := none
    currentTo := none
    fromInput := "2024-05-10 10:00:00"
    toInput := "2024-05-09 10:00:00"
    hiddenFrom := "2024-01-01 00:00:00"
    hiddenTo := "2024-01-02 00:00:00"
    summaryLabel := "S"
    panelOpen := true
    pickerBuilt := false
    pickerRange := none
    alerts := []
    submitCount := 0 }

theorem apply_invalid_blocks_witness :
    (applyClick applyTestBad).alerts.length = applyTestBad.alerts.length + 1 ∧
    (applyClick applyTestBad).hiddenFrom = applyTestBad.hiddenFrom ∧
    (applyClick applyTestBad).hiddenTo = applyTestBad.hiddenTo ∧
    (applyClick applyTestBad).submitCount = applyTestBad.submitCount :=
  have h := apply_invalid_blocks applyTestBad (Or.inr (Or.inr (Or.inr (Or.inr
    ⟨1715335200000, 1715248800000, by decide, by decide, by decide⟩))))
  ⟨h.1, h.2.1, h.2.2.1, h.2.2.2.2.2.2.2⟩

/-- C4: on non-empty, parseable, ordered inputs apply writes exactly the
formatted strings into the two hidden fields, sets the summary label to
`"<from> → <to>"`, closes the panel and submits exactly once; nothing else
changes. -/
theorem apply_valid_commits (st : PickerState) (f t : Int)
    (h1 : ¬ (st.fromInput = "" ∨ st.toInput = ""))
    (hf : jsDateParse (replaceFirstSpaceT st.fromInput) = some f)
    (ht : jsDateParse (replaceFirstSpaceT st.toInput) = some t)
    (hle : f ≤ t) :
    applyClick st = { st with
      currentFrom := some f
      currentTo := some t
      hiddenFrom := formatDateTime f
      hiddenTo := formatDateTime t
      summaryLabel := formatDateTime f ++ " → " ++ formatDateTime t
      panelOpen := false
      submitCount := st.submitCount + 1 } := by
  unfold applyClick
  rw [if_neg h1, hf, ht]
  have hnl : ¬ t < f := by omega
  simp only [hnl, if_false]

def applyTestGood : PickerState :=
  { currentFrom := none
    currentTo := none
    fromInput := "2024-05-09 10:00:00"
    toInput := "2024-05-10 10:00:00"
    hiddenFrom := ""
    hiddenTo := ""
    summaryLabel := ""
    panelOpen := true
    pickerBuilt := false
    pickerRange := none
    alerts := []
    submitCount := 0 }

theorem apply_valid_commits_witness :
    (applyClick applyTestGood).hiddenFrom = "2024-05-09 10:00:00" ∧
    (applyClick applyTestGood).hiddenTo = "2024-05-10 10:00:00" ∧
    (applyClick applyTestGood).submitCount = 1 ∧
    (applyClick applyTestGood).panelOpen = false := by
  rw [apply_valid_commits applyTestGood 1715248800000 1715335200000 (by decide)
    (by decide) (by decide) (by decide)]
  refine ⟨?_, ?_, rfl, rfl⟩ <;> decide

theorem initFromHidden_frame (st : PickerState) :
    (initFromHidden st).hiddenFrom = st.hiddenFrom ∧
    (initFromHidden st).hiddenTo = st.hiddenTo := by
  unfold initFromHidden
  simp only []
  split <;> exact ⟨rfl, rfl⟩

theorem openPanel_frame (st : PickerState) (lp : Bool) :
    (openPanel st lp).hiddenFrom = st.hiddenFrom ∧
    (openPanel st lp).hiddenTo = st.hiddenTo := by
  unfold openPanel
  simp only []
  split_ifs <;> (try split) <;> exact ⟨rfl, rfl⟩

theorem onCalendarSelected_frame (st : PickerState) (d1 d2 : Option Int) :
    (onCalendarSelected st d1 d2).hiddenFrom = st.hiddenFrom ∧
    (onCalendarSelected st d1 d2).hiddenTo = st.hiddenTo := by
  unfold onCalendarSelected
  split <;> exact ⟨rfl, rfl⟩

/-- C10: only a successful apply writes the hidden submission fields —
quick-range selection, calendar selection, hidden-field initialisation,
panel open and panel close all leave both hidden fields unchanged, even
though quick-range and calendar selection do overwrite the stored range
and the visible inputs. -/
theorem hidden_fields_only_written_by_apply (st : PickerState) (key : String)
    (now : Int) (d1 d2 : Option Int) (lp : Bool) :
    ((selectQuickRange st key now).hiddenFrom = st.hiddenFrom ∧
     (selectQuickRange st key now).hiddenTo = st.hiddenTo) ∧
    ((onCalendarSelected st d1 d2).hiddenFrom = st.hiddenFrom ∧
     (onCalendarSelected st d1 d2).hiddenTo = st.hiddenTo) ∧
    ((initFromHidden st).hiddenFrom = st.hiddenFrom ∧
     (initFromHidden st).hiddenTo = st.hiddenTo) ∧
    ((openPanel st lp).hiddenFrom = st.hiddenFrom ∧
     (openPanel st lp).hiddenTo = st.hiddenTo) ∧
    ((closePanel st).hiddenFrom = st.hiddenFrom ∧
     (closePanel st).hiddenTo = st.hiddenTo) ∧
    (selectQuickRange st key now).currentFrom = some (computeQuickRange key now).1 ∧
    (selectQuickRange st key now).currentTo = some (computeQuickRange key now).2 ∧
    (selectQuickRange st key now).fromInput = formatDateTime (computeQuickRange key now).1 ∧
    (onCalendarSelected st (some now) (some now)).currentFrom
      = some (setHours now 0 0 0 0) :=
  ⟨⟨rfl, rfl⟩, onCalendarSelected_frame st d1 d2, initFromHidden_frame st,
   openPanel_frame st lp, ⟨rfl, rfl⟩, rfl, rfl, rfl, rfl⟩

/-! ## JSON values

The key-value editor decodes and re-encodes JSON (`JSON.parse` /
`JSON.stringify`).  `Json` models a parsed JavaScript JSON value; object
members keep insertion order (the integer-like-key reordering of JavaScript
property enumeration is not modelled — no key in play is integer-like).
Number literals are modelled as integers: fraction or exponent literals are
treated as unparseable, and no claim exercises them (double-precision float
semantics stay outside the model).  Lone-surrogate escapes are likewise out
of scope. -/

inductive Json where
  | null : Json
  | bool (b : Bool) : Json
  | num (n : Int) : Json
  | str (s : String) : Json
  | arr (elems : List Json) : Json
  | obj (members : List (String × Json)) : Json

def hexDigit (n : Nat) : Char := Char.ofNat (if n < 10 then 48 + n else 87 + n)

def escapeJsonChar (c : Char) : List Char :=
  if c = '"' then ['\\', '"']
  else if c = '\\' then ['\\', '\\']
  else if c = Char.ofNat 8 then ['\\', 'b']
  else if c = Char.ofNat 9 then ['\\', 't']
  else if c = Char.ofNat 10 then ['\\', 'n']
  else if c = Char.ofNat 12 then ['\\', 'f']
  else if c = Char.ofNat 13 then ['\\', 'r']
  else if c.toNat < 32 then
    ['\\', 'u', '0', '0', hexDigit (c.toNat / 16), hexDigit (c.toNat % 16)]
  else [c]

def quoteJsonString (s : String) : String :=
  String.mk ('"' :: (s.data.map escapeJsonChar).flatten ++ ['"'])

mutual

def jsonStringify : Json → String
  | Json.null => "null"
  | Json.bool true => "true"
  | Json.bool false => "false"
  | Json.num n => toString n
  | Json.str s => quoteJsonString s
  | Json.arr xs => "[" ++ stringifySeq xs ++ "]"
  | Json.obj kvs => "\x7b" ++ stringifyMembers kvs ++ "\x7d"

def stringifySeq : List Json → String
  | [] => ""
  | [v] => jsonStringify v
  | v :: vs => jsonStringify v ++ "," ++ stringifySeq vs

def stringifyMembers : List (String × Json) → String
  | [] => ""
  | [(k, v)] => quoteJsonString k ++ ":" ++ jsonStringify v
  | (k, v) :: kvs => quoteJsonString k ++ ":" ++ jsonStringify v ++ "," ++ stringifyMembers kvs

end

example : jsonStringify (Json.obj [("a", Json.num 1), ("b", Json.str "x")])
    = "\x7b\"a\":1,\"b\":\"x\"\x7d" := rfl

def isJsonWs (c : Char) : Bool := c = ' ' ∨ c = '\t' ∨ c = '\n' ∨ c = '\r'

def skipWs : List Char → List Char
  | [] => []
  | c :: cs => if isJsonWs c then skipWs cs else c :: cs

def isDigitCh (c : Char) : Bool := '0' ≤ c ∧ c ≤ '9'

def digitIntCh (c : Char) : Int := (c.toNat : Int) - 48

def hexVal (c : Char) : Option Nat :=
  if '0' ≤ c ∧ c ≤ '9' then some (c.toNat - 48)
  else if 'a' ≤ c ∧ c ≤ 'f' then some (c.toNat - 87)
  else if 'A' ≤ c ∧ c ≤ 'F' then some (c.toNat - 55)
  else none

def parseStringBody : Nat → List Char → Option (List Char × List Char)
  | 0, _ => none
  | _, [] => none
  | fuel + 1, c :: cs =>
    if c = '"' then some ([], cs)
    else if c = '\\' then
      match cs with
      | [] => none
      | e :: cs2 =>
        let cont := fun (d : Char) (rest : List Char) =>
          (parseStringBody fuel rest).map (fun p => (d :: p.1, p.2))
        if e = '"' then cont '"' cs2
        else if e = '\\' then cont '\\' cs2
        else if e = '/' then cont '/' cs2
        else if e = 'b' then cont (Char.ofNat 8) cs2
        else if e = 'f' then cont (Char.ofNat 12) cs2
        else if e = 'n' then cont (Char.ofNat 10) cs2
        else if e = 'r' then cont (Char.ofNat 13) cs2
        else if e = 't' then cont (Char.ofNat 9) cs2
        else if e = 'u' then
          match cs2 with
          | h1 :: h2 :: h3 :: h4 :: cs3 =>
            match hexVal h1, hexVal h2, hexVal h3, hexVal h4 with
            | some a, some b, some c3, some d4 =>
              cont (Char.ofNat (a * 4096 + b * 256 + c3 * 16 + d4)) cs3
            | _, _, _, _ => none
          | _ => none
        else none
    else if c.toNat < 32 then none
    else (parseStringBody fuel cs).map (fun p => (c :: p.1, p.2))

def takeDigits : List Char → List Char × List Char
  | [] => ([], [])
  | c :: cs =>
    if isDigitCh c then
      let p := takeDigits cs
      (c :: p.1, p.2)
    else ([], c :: cs)

def parseJsonNumber (cs : List Char) : Option (Int × List Char) :=
  let sgn : Bool × List Char :=
    match cs with
    | '-' :: rest => (true, rest)
    | _ => (false, cs)
  match takeDigits sgn.2 with
  | ([], _) => none
  | (ds, rest) =>
    if 1 < ds.length ∧ ds.headD '0' = '0' then none
    else
      match rest with
      | '.' :: _ => none
      | 'e' :: _ => none
      | 'E' :: _ => none
      | _ =>
        let n := ds.foldl (fun a c => a * 10 + digitIntCh c) 0
        some ((if sgn.1 then -n else n), rest)

def objInsert : List (String × Json) → String → Json → List (String × Json)
  | [], k, v => [(k, v)]
  | (k0, v0) :: rest, k, v =>
    if k0 = k then (k0, v) :: rest else (k0, v0) :: objInsert rest k v

mutual

def parseJsonValue : Nat → List Char → Option (Json × List Char)
  | 0, _ => none
  | fuel + 1, cs =>
    match skipWs cs with
    | 't' :: 'r' :: 'u' :: 'e' :: rest => some (Json.bool true, rest)
    | 'f' :: 'a' :: 'l' :: 's' :: 'e' :: rest => some (Json.bool false, rest)
    | 'n' :: 'u' :: 'l' :: 'l' :: rest => some (Json.null, rest)
    | '"' :: rest =>
      (parseStringBody (rest.length + 1) rest).map
        (fun p => (Json.str (String.mk p.1), p.2))
    | '[' :: rest =>
      match skipWs rest with
      | ']' :: rest2 => some (Json.arr [], rest2)
      | rest2 => parseArrayItems fuel rest2 []
    | '\x7b' :: rest =>
      match skipWs rest with
      | '\x7d' :: rest2 => some (Json.obj [], rest2)
      | rest2 => parseObjectMembers fuel rest2 []
    | rest => (parseJsonNumber rest).map (fun p => (Json.num p.1, p.2))

def parseArrayItems : Nat → List Char → List Json → Option (Json × List Char)
  | 0, _, _ => none
  | fuel + 1, cs, acc =>
    match parseJsonValue fuel cs with
    | none => none
    | some (v, rest) =>
      match skipWs rest with
      | ',' :: rest2 => parseArrayItems fuel rest2 (acc ++ [v])
      | ']' :: rest2 => some (Json.arr (acc ++ [v]), rest2)
      | _ => none

def parseObjectMembers : Nat → List Char → List (String × Json) →
    Option (Json × List Char)
  | 0, _, _ => none
  | fuel + 1, cs, acc =>
    match skipWs cs with
    | '"' :: rest =>
      match parseStringBody (rest.length + 1) rest with
      | none => none
      | some (kcs, rest2) =>
        match skipWs rest2 with
        | ':' :: rest3 =>
          match parseJsonValue fuel rest3 with
          | none => none
          | some (v, rest4) =>
            match skipWs rest4 with
            | ',' :: rest5 => parseObjectMembers fuel rest5 (objInsert acc (String.mk kcs) v)
            | '\x7d' :: rest5 => some (Json.obj (objInsert acc (String.mk kcs) v), rest5)
            | _ => none
        | _ => none
    | _ => none

end

def jsonParse (s : String) : Option Json :=
  match parseJsonValue (2 * s.data.length + 4) s.data with
  | some (v, rest) => if skipWs rest = [] then some v else none
  | none => none

example : jsonParse "1" = some (Json.num 1) := rfl
example : jsonParse "x" = none := rfl
example : jsonParse "" = none := rfl
example : jsonParse "[1,2]" = some (Json.arr [Json.num 1, Json.num 2]) := rfl
example : jsonParse "\x7b\"a\":1,\"b\":\"x\"\x7d"
    = some (Json.obj [("a", Json.num 1), ("b", Json.str "x")]) := rfl
example : jsonParse " \x7b \"a\" : [true, null, \"s\"] \x7d "
    = some (Json.obj [("a", Json.arr [Json.bool true, Json.null, Json.str "s"])]) := rfl
example : jsonParse "-05" = none := rfl
example : jsonParse "-5" = some (Json.num (-5)) := rfl
example : jsonParse "1,2" = none := rfl
example : jsonParse "\"a\\nb\"" = some (Json.str (String.mk ['a', Char.ofNat 10, 'b'])) := rfl
example : jsonParse "null" = some Json.null := rfl
example : jsonParse (jsonStringify (Json.obj [("a", Json.num 1), ("b", Json.str "x")]))
    = some (Json.obj [("a", Json.num 1), ("b", Json.str "x")]) := rfl

/-! ## The key-value editor (`kvjson.js`) -/

/-- `parseValue`: decode a value cell as JSON, falling back to the literal
string; the empty string is returned directly (empty input is not JSON). -/
def parseValue (text : String) : Json :=
  if text = "" then Json.str ""
  else
    match jsonParse text with
    | some v => v
    | none => Json.str text

/-- `toDisplay`: a string renders verbatim, anything else as its JSON
serialization (`JSON.stringify` cannot throw on a `Json` value, so the
source's fallback branch is dead). -/
def toDisplay : Json → String
  | Json.str s => s
  | v => jsonStringify v

/-- The row fold of `syncHidden`: trim each key, skip empty keys, skip keys
already present (`hasOwnProperty` — first occurrence wins), decode each kept
value with `parseValue`.  The accumulator is the object built so far.  The
plain-object model ignores the `__proto__` prototype-setter quirk of
JavaScript property assignment, which no key in the claims exercises. -/
def syncData : List (String × String) → List (String × Json) → List (String × Json)
  | [], data => data
  | (k, vraw) :: rows, data =>
    let key := jsTrim k
    if key = "" then syncData rows data
    else if data.any (fun kv => kv.1 == key) then syncData rows data
    else syncData rows (data ++ [(key, parseValue vraw)])

/-- A key-value widget: the key/value input contents of its rows, and its
hidden field. -/
structure KvState where
  rows : List (String × String)
  hidden : String
  deriving DecidableEq, Repr

/-- `syncHidden`: serialize the row fold into the hidden field. -/
def syncHidden (st : KvState) : KvState :=
  { st with hidden := jsonStringify (Json.obj (syncData st.rows [])) }

/-- `Object.keys(data)` paired with the values `data[k]` reads, for the
value `loadInitial` parsed: objects enumerate their members, arrays their
indices, strings their characters, other primitives nothing — and
`Object.keys(null)` throws a `TypeError` (`none`). -/
def jsEntries : Json → Option (List (String × Json))
  | Json.null => none
  | Json.obj kvs => some kvs
  | Json.arr xs => some (xs.enum.map (fun p => (toString p.1, p.2)))
  | Json.str s =>
    some (s.data.enum.map (fun p => (toString p.1, Json.str (String.mk [p.2]))))
  | Json.num _ => some []
  | Json.bool _ => some []

/-- `loadInitial`: parse the hidden field (empty object on empty string or
parse failure), clear the rows and materialise one row per entry, each value
rendered with `toDisplay`.  (`buildRow` interpolates the texts into an
`innerHTML` template; the attribute-escaping artifacts that quotes in a key
or value would cause there are DOM plumbing outside the model.) -/
def loadInitial (st : KvState) : Option KvState :=
  let data :=
    if st.hidden = "" then Json.obj []
    else
      match jsonParse st.hidden with
      | some v => v
      | none => Json.obj []
  (jsEntries data).map (fun es =>
    { st with rows := es.map (fun kv => (kv.1, toDisplay kv.2)) })

/-- `addRow`: append a row (the call sites pass strings, which `toDisplay`
renders verbatim) and resync. -/
def addRow (st : KvState) (key val : String) : KvState :=
  syncHidden { st with rows := st.rows ++ [(key, toDisplay (Json.str val))] }

/-- The remove button's handler: delete the row, resync. -/
def removeRow (st : KvState) (i : Nat) : KvState :=
  syncHidden { st with rows := st.rows.eraseIdx i }

/-- The `input` handler after the user edits row `i`: the DOM already holds
the new contents when `syncHidden` runs. -/
def changeRow (st : KvState) (i : Nat) (k v : String) : KvState :=
  syncHidden { st with rows := st.rows.set i (k, v) }

/-- `init`: load the initial document and, if that yields no rows, add one
blank row (which resyncs the hidden field). -/
def init (st : KvState) : Option KvState :=
  (loadInitial st).map (fun st1 => if st1.rows.isEmpty then addRow st1 "" "" else st1)

/-- Does a string parse as a JSON object? -/
def isJsonObjectString (s : String) : Bool :=
  match jsonParse s with
  | some (Json.obj _) => true
  | _ => false

/-- One step of the resync fold as §4.3 of the spec words it: trim the key;
drop the row on an empty or already-accepted key; otherwise decode the value
as JSON, falling back to the raw string, the empty string bypassing JSON
decoding.  Written from the spec for comparison with `syncData`. -/
def specResyncStep (acc : List (String × Json)) (r : String × String) :
    List (String × Json) :=
  let key := jsTrim r.1
  if key = "" then acc
  else if acc.any (fun kv => kv.1 == key) then acc
  else acc ++ [(key,
    if r.2 = "" then Json.str ""
    else
      match jsonParse r.2 with
      | some v => v
      | none => Json.str r.2)]

/-- The document §4.3 prescribes: the fold of `specResyncStep` over the rows
in order. -/
def specResync (rows : List (String × String)) : List (String × Json) :=
  rows.foldl specResyncStep []

theorem syncData_eq_foldl (rows : List (String × String))
    (acc : List (String × Json)) :
    syncData rows acc = rows.foldl specResyncStep acc := by
  induction rows generalizing acc with
  | nil => rfl
  | cons r rows ih =>
    obtain ⟨k, v⟩ := r
    simp only [syncData, List.foldl, specResyncStep, parseValue]
    split_ifs <;> apply ih

/-- C1: resync computes exactly the spec's fold over the rows in order
(trimmed keys, empty keys skipped, first occurrence of a key wins, values
JSON-decoded with string fallback and the empty string mapped directly); in
particular `[("a","1"), ("a","2")]` yields the document `«a» ↦ 1`, serialized
into the hidden field as the object string. -/
theorem resync_is_spec_fold :
    (∀ rows : List (String × String), syncData rows [] = specResync rows) ∧
    syncData [("a", "1"), ("a", "2")] [] = [("a", Json.num 1)] ∧
    (syncHidden { rows := [("a", "1"), ("a", "2")], hidden := "" }).hidden
      = "\x7b\"a\":1\x7d" :=
  ⟨fun rows => syncData_eq_foldl rows [], rfl, rfl⟩

/-- C5: loading `«a» ↦ 1, «b» ↦ "x"` into rows (each value rendered with its
display form) and resyncing reproduces an equivalent document: the same keys
in the same order with the same decoded values, and the identical hidden
string. -/
theorem kv_load_resync_roundtrip :
    jsonParse "\x7b\"a\":1,\"b\":\"x\"\x7d"
      = some (Json.obj [("a", Json.num 1), ("b", Json.str "x")]) ∧
    loadInitial { rows := [], hidden := "\x7b\"a\":1,\"b\":\"x\"\x7d" }
      = some { rows := [("a", "1"), ("b", "x")],
               hidden := "\x7b\"a\":1,\"b\":\"x\"\x7d" } ∧
    syncData [("a", "1"), ("b", "x")] [] = [("a", Json.num 1), ("b", Json.str "x")] ∧
    (syncHidden { rows := [("a", "1"), ("b", "x")]
                  hidden := "\x7b\"a\":1,\"b\":\"x\"\x7d" }).hidden
      = "\x7b\"a\":1,\"b\":\"x\"\x7d" :=
  ⟨rfl, rfl, rfl, rfl⟩

/-- Counterexample to C9 as stated: initialising from the valid JSON document
`[1,2]` (an array, not an object) materialises its index rows but leaves the
hidden field holding `"[1,2]"`, which does not parse as a JSON object. -/
theorem kv_init_array_hidden_not_object :
    init { rows := [], hidden := "[1,2]" }
      = some { rows := [("0", "1"), ("1", "2")], hidden := "[1,2]" } ∧
    isJsonObjectString "[1,2]" = false :=
  ⟨rfl, rfl⟩

/-- C9 (amended): every operation that resyncs — explicit `syncHidden` (the
form-submit handler), `addRow`, row removal and input change — leaves the
hidden field the JSON serialization of an object; initialisation sets the
hidden field to `"{}"` (with exactly one blank row) when the initial
document is empty or unparseable, and otherwise leaves it untouched. -/
theorem kv_hidden_object_after_resync :
    (∀ st : KvState, ∃ d, (syncHidden st).hidden = jsonStringify (Json.obj d)) ∧
    (∀ (st : KvState) (k v : String), ∃ d,
      (addRow st k v).hidden = jsonStringify (Json.obj d)) ∧
    (∀ (st : KvState) (i : Nat), ∃ d,
      (removeRow st i).hidden = jsonStringify (Json.obj d)) ∧
    (∀ (st : KvState) (i : Nat) (k v : String), ∃ d,
      (changeRow st i k v).hidden = jsonStringify (Json.obj d)) ∧
    (∀ st : KvState, st.hidden ≠ "" → jsonParse st.hidden = none →
      init st = some { rows := [("", "")], hidden := "\x7b\x7d" }) ∧
    (∀ st : KvState, st.hidden = "" →
      init st = some { rows := [("", "")], hidden := "\x7b\x7d" }) ∧
    isJsonObjectString "\x7b\x7d" = true := by
  refine ⟨fun st => ⟨syncData st.rows [], rfl⟩,
    fun st k v => ⟨_, rfl⟩, fun st i => ⟨_, rfl⟩, fun st i k v => ⟨_, rfl⟩,
    ?_, ?_, rfl⟩
  · intro st hne hp
    unfold init loadInitial
    rw [if_neg hne, hp]
    rfl
  · intro st he
    unfold init loadInitial
    rw [if_pos he]
    rfl
